import Mathlib

/-!
Verification of the ELL graph-compiler core against its source.

The definitions below are shallow embeddings of the C++ source files:
* `src/unnamed/part_003` (BinaryConvolutionalLayerNode.cpp): the `CeilDiv`
  helper, the task-splitting policy in
  `BinaryReceptiveFieldMatrixNode::Compile` / `BinaryXnorNode::Compile`,
  the task functions, and the per-index loop bodies
  (`LoadRow`, `CompressRow`, `EmitInnerLoop`, `ComputeFilterOutput`).
* `InputPort.cpp` (embedded in HardSigmoidActivation.h): the input-port
  binding operations and their consistency invariant.
* `IRHeaderWriter.cpp`: the exported-function filter.
* `ModelTransformer.h` (part_001): the transform-context node-action policy
  and the submodel-grafting copy-elision policy (implementations are not in
  the sampled sources; those two are modelled from the spec, as marked).

Machine `int` arithmetic is modelled with `Int` and C's truncated division
`Int.tdiv`; sizes and indices that the source keeps non-negative are `Nat`.
-/

namespace ELL

/-! ## Task splitting (BinaryConvolutionalLayerNode.cpp lines 40-43, 417-432, 611-627) -/

/-- Source: `int CeilDiv(int a, int b) { return (a - 1) / b + 1; }`.
C++ `int` division truncates toward zero, which is `Int.tdiv`. -/
def CeilDiv (a b : Int) : Int :=
  (a - 1).tdiv b + 1

/-- The mathematical ceiling `⌈N / D⌉` for a non-negative numerator and positive
denominator, used as the specification-side value to compare `CeilDiv` against. -/
def specCeil (n d : Int) : Int :=
  (n + d - 1).tdiv d

/-- `const int taskSize = CeilDiv(numOutputRows, numDesiredTasks);` -/
def taskSize (n d : Int) : Int := CeilDiv n d

/-- `const int numTasks = CeilDiv(numOutputRows, taskSize);` -/
def numTasks (n d : Int) : Int := CeilDiv n (taskSize n d)

/-- The per-task index ranges built in `Compile`:
`start = taskIndex * taskSize; end = min((taskIndex + 1) * taskSize, numOutputRows)`
for `taskIndex = 0 .. numTasks-1`. -/
def taskSplitRanges (n d : Int) : List (Int × Int) :=
  (List.range (numTasks n d).toNat).map fun (i : Nat) =>
    ((i : Int) * taskSize n d, min (((i : Int) + 1) * taskSize n d) n)

/-- The list of indices a task range `[start, end)` covers. -/
def rangeIndices (r : Int × Int) : List Nat :=
  List.range' r.1.toNat (r.2 - r.1).toNat

/-! ### Arithmetic bridge between the C `int` model and `Nat` -/

theorem tdiv_coe (m k : Nat) : (m : Int).tdiv (k : Int) = ((m / k : Nat) : Int) := rfl

theorem taskSize_coe (n d : Nat) (hn : 1 ≤ n) :
    taskSize (n : Int) (d : Int) = (((n - 1) / d + 1 : Nat) : Int) := by
  unfold taskSize CeilDiv
  have h1 : ((n : Int) - 1) = ((n - 1 : Nat) : Int) := by omega
  rw [h1, tdiv_coe]
  push_cast
  ring

theorem numTasks_coe (n d : Nat) (hn : 1 ≤ n) :
    numTasks (n : Int) (d : Int) = (((n - 1) / ((n - 1) / d + 1) + 1 : Nat) : Int) := by
  unfold numTasks CeilDiv
  rw [taskSize_coe n d hn]
  have h1 : ((n : Int) - 1) = ((n - 1 : Nat) : Int) := by omega
  rw [h1, tdiv_coe]
  push_cast
  ring

theorem specCeil_coe (n d : Nat) (hn : 1 ≤ n) (hd : 0 < d) :
    specCeil (n : Int) (d : Int) = (((n - 1) / d + 1 : Nat) : Int) := by
  unfold specCeil
  have h1 : ((n : Int) + d - 1) = ((n - 1 + d : Nat) : Int) := by omega
  rw [h1, tdiv_coe, Nat.add_div_right _ hd]

theorem taskSplitRanges_flat (n d : Nat) (hn : 1 ≤ n) :
    (taskSplitRanges (n : Int) (d : Int)).flatMap rangeIndices
      = (List.range ((n - 1) / ((n - 1) / d + 1) + 1)).flatMap
          (fun i => List.range' (i * ((n - 1) / d + 1))
            (min ((i + 1) * ((n - 1) / d + 1)) n - i * ((n - 1) / d + 1))) := by
  unfold taskSplitRanges
  rw [taskSize_coe n d hn, numTasks_coe n d hn, Int.toNat_ofNat, List.flatMap_map]
  apply congrArg
  funext i
  unfold rangeIndices
  have e1 : ((i : Int) * (((n - 1) / d + 1 : Nat) : Int))
      = ((i * ((n - 1) / d + 1) : Nat) : Int) := by
    push_cast; ring
  have e2 : min (((i : Int) + 1) * (((n - 1) / d + 1 : Nat) : Int)) ((n : Nat) : Int)
      = ((min ((i + 1) * ((n - 1) / d + 1)) n : Nat) : Int) := by
    push_cast; ring_nf
  simp only [e1, e2, Int.toNat_ofNat, Int.toNat_sub]

/-! ### The ranges of consecutive equal-size tasks tile `[0, n)` -/

theorem natTiling_upTo (n s : Nat) (hs : 1 ≤ s) (hn : 1 ≤ n) :
    ∀ j, j ≤ (n - 1) / s + 1 →
      ((List.range j).flatMap fun i => List.range' (i * s) (min ((i + 1) * s) n - i * s))
        = List.range' 0 (min (j * s) n) := by
  intro j hj
  induction j with
  | zero => simp
  | succ j ih =>
    rw [List.range_succ, List.flatMap_append, ih (Nat.le_of_succ_le hj)]
    have hjle : j ≤ (n - 1) / s := by omega
    have hjs : j * s ≤ n - 1 := (Nat.le_div_iff_mul_le hs).1 hjle
    have h1 : min (j * s) n = j * s := by omega
    have h2 : j * s ≤ min ((j + 1) * s) n := by
      have : j * s ≤ (j + 1) * s := Nat.mul_le_mul_right s (Nat.le_succ j)
      omega
    rw [h1]
    have happ := List.range'_append_1 0 (j * s) (min ((j + 1) * s) n - j * s)
    rw [Nat.zero_add] at happ
    simp only [List.flatMap_cons, List.flatMap_nil, List.append_nil]
    rw [happ, Nat.sub_add_cancel h2]

theorem natTiling (n s : Nat) (hs : 1 ≤ s) (hn : 1 ≤ n) :
    ((List.range ((n - 1) / s + 1)).flatMap
        fun i => List.range' (i * s) (min ((i + 1) * s) n - i * s))
      = List.range n := by
  rw [natTiling_upTo n s hs hn _ le_rfl]
  have h := Nat.lt_mul_div_succ (n - 1) hs
  have hmin : min (((n - 1) / s + 1) * s) n = n := by
    have : s * ((n - 1) / s + 1) = ((n - 1) / s + 1) * s := Nat.mul_comm _ _
    omega
  rw [hmin, List.range_eq_range']

/-- Claim C1, counterexample to the claim as stated: the claim quantifies over
every total work size `N ≥ 0`, but at `N = 0`, `D = 2` the code computes
`taskSize = CeilDiv(0, 2) = (0 - 1) / 2 + 1 = 1` (C division truncates toward
zero), while `⌈0 / 2⌉ = 0`, so the computed task size differs from
`ceil(N / D)`. -/
theorem C1_taskSize_zero_counterexample :
    taskSize 0 2 = 1 ∧ specCeil 0 2 = 0 ∧ taskSize 0 2 ≠ specCeil 0 2 := by
  decide

/-- Claim C1 (amended to positive work sizes `N ≥ 1`): for every `N ≥ 1` and
desired task count `D ≥ 1`, the task size computed in
`BinaryReceptiveFieldMatrixNode::Compile` equals `⌈N / D⌉`, the task count
equals `⌈N / ⌈N / D⌉⌉`, and the generated task ranges
`[i*taskSize, min((i+1)*taskSize, N))` are disjoint, sorted, contiguous and
cover exactly `[0, N)`: their concatenated index lists equal `[0, 1, ..., N-1]`. -/
theorem C1_taskSplit_tiles (n d : Nat) (hn : 1 ≤ n) (hd : 1 ≤ d) :
    taskSize (n : Int) (d : Int) = specCeil (n : Int) (d : Int) ∧
    numTasks (n : Int) (d : Int) = specCeil (n : Int) (specCeil (n : Int) (d : Int)) ∧
    (taskSplitRanges (n : Int) (d : Int)).flatMap rangeIndices = List.range n := by
  have hsz := taskSize_coe n d hn
  have hsc := specCeil_coe n d hn hd
  have hs1 : 1 ≤ (n - 1) / d + 1 := Nat.le_add_left 1 _
  refine ⟨by rw [hsz, hsc], ?_, ?_⟩
  · rw [numTasks_coe n d hn, hsc, specCeil_coe n ((n - 1) / d + 1) hn hs1]
  · rw [taskSplitRanges_flat n d hn]
    exact natTiling n ((n - 1) / d + 1) hs1 hn

/-- Witness for C1's amended theorem at `N = 7`, `D = 3`: task size 3, three
tasks, ranges `[0,3) [3,6) [6,7)` concatenating to `[0..6]`. -/
theorem C1_taskSplit_tiles_witness :
    (taskSplitRanges ((7 : Nat) : Int) ((3 : Nat) : Int)).flatMap rangeIndices
      = List.range 7 :=
  (C1_taskSplit_tiles 7 3 (by decide) (by decide)).2.2

/-! ## Compiler options, node data and loop dispatch -/

/-- The compiler options the task-splitting and vectorization code reads
(`maxThreads`, `parallelize`, `allowVectorInstructions`, `vectorWidth`). -/
structure CompilerOptions where
  maxThreads : Int
  parallelize : Bool
  allowVectorInstructions : Bool
  vectorWidth : Nat

/-- The shape of the outer loop a node's `Compile` emits: either a set of
dispatched tasks with `(start, end)` argument pairs (followed by `WaitAll`),
or a single sequential loop over `[0, count)`. -/
inductive EmittedLoop where
  | tasks (ranges : List (Int × Int))
  | seqLoop (count : Int)
deriving DecidableEq

/-- A port memory layout's active sizes and extents in three dimensions
(`GetActiveSize(i)` / `GetExtent()[i]`). -/
structure PortMemoryLayout where
  active0 : Nat
  active1 : Nat
  active2 : Nat
  extent0 : Nat
  extent1 : Nat
  extent2 : Nat
deriving DecidableEq

/-- `BinaryWeightsScale` (predictors); `scaleOutputByFilterMeans = mean`. -/
inductive BinaryWeightsScale where
  | none
  | mean
deriving DecidableEq

structure BinaryConvolutionalParameters where
  receptiveField : Nat
  stride : Nat
  weightsScale : BinaryWeightsScale
deriving DecidableEq

inductive PaddingScheme where
  | zeros
  | minusOnes
deriving DecidableEq

structure PaddingParameters where
  paddingScheme : PaddingScheme
  paddingSize : Nat
deriving DecidableEq

/-- Modelled from the spec: `predictors::neural::HasPadding(params, scheme)`
(its definition is not among the sampled sources) — the layer has padding of
the given scheme when its padding size is non-zero and the scheme matches. -/
def HasPadding (p : PaddingParameters) (s : PaddingScheme) : Bool :=
  p.paddingSize != 0 && p.paddingScheme == s

/-- The fields of `BinaryReceptiveFieldMatrixNode` its `Compile` and
`GetTaskFunction` read. -/
structure BinaryReceptiveFieldMatrixNode where
  convolutionalParameters : BinaryConvolutionalParameters
  inputMemoryLayout : PortMemoryLayout
  outputMemoryLayout : PortMemoryLayout
deriving DecidableEq

/-- `numOutputRows = outputImageWidth * outputImageHeight` where height is
`GetActiveSize(0)` and width is `GetActiveSize(1)` (Compile lines 413-415). -/
def BinaryReceptiveFieldMatrixNode.numOutputRows
    (node : BinaryReceptiveFieldMatrixNode) : Nat :=
  node.outputMemoryLayout.active1 * node.outputMemoryLayout.active0

/-- The fields of `BinaryXnorNode` its `Compile`, `GetTaskFunction` and
`ComputeFilterOutput` read. -/
structure BinaryXnorNode where
  convolutionalParameters : BinaryConvolutionalParameters
  inputPaddingParameters : PaddingParameters
  inputMemoryLayout : PortMemoryLayout
  outputMemoryLayout : PortMemoryLayout
deriving DecidableEq

/-- `numFilters = outputSize[2]` (BinaryXnorNode::Compile line 591). -/
def BinaryXnorNode.numFilters (node : BinaryXnorNode) : Nat :=
  node.outputMemoryLayout.active2

/-- The dispatch decision of `BinaryReceptiveFieldMatrixNode::Compile`
(lines 417-432): split `numOutputRows` units of work into tasks when
`parallelize` is set and more than one task results, otherwise fall back to a
single sequential loop over all output rows. -/
def brfmDispatch (opts : CompilerOptions)
    (node : BinaryReceptiveFieldMatrixNode) : EmittedLoop :=
  let numOutputRows : Int := node.numOutputRows
  let numDesiredTasks := opts.maxThreads
  if opts.parallelize = true ∧ 1 < numTasks numOutputRows numDesiredTasks then
    EmittedLoop.tasks (taskSplitRanges numOutputRows numDesiredTasks)
  else
    EmittedLoop.seqLoop numOutputRows

/-- The dispatch decision of `BinaryXnorNode::Compile` (lines 611-628): the
same policy over `numFilters` units of work. -/
def xnorDispatch (opts : CompilerOptions) (node : BinaryXnorNode) : EmittedLoop :=
  let numFilters : Int := node.numFilters
  let numDesiredTasks := opts.maxThreads
  if opts.parallelize = true ∧ 1 < numTasks numFilters numDesiredTasks then
    EmittedLoop.tasks (taskSplitRanges numFilters numDesiredTasks)
  else
    EmittedLoop.seqLoop numFilters

/-- Whether an emitted loop dispatches parallel tasks. -/
def EmittedLoop.isTasks : EmittedLoop → Bool
  | .tasks _ => true
  | .seqLoop _ => false

/-- Claim C2: for `BinaryReceptiveFieldMatrixNode` and `BinaryXnorNode`,
parallel tasks are dispatched if and only if the `parallelize` compiler option
is enabled and the computed task count exceeds 1; in every other case `Compile`
emits a single sequential loop over the entire index range (`numOutputRows`
output rows, respectively `numFilters` filters; claim C3 separately shows both
paths run the same body logic). -/
theorem C2_dispatch_iff (opts : CompilerOptions)
    (bnode : BinaryReceptiveFieldMatrixNode) (xnode : BinaryXnorNode) :
    (((brfmDispatch opts bnode).isTasks = true) ↔
        (opts.parallelize = true ∧
          1 < numTasks (bnode.numOutputRows : Int) opts.maxThreads)) ∧
    (((brfmDispatch opts bnode).isTasks = false) →
        brfmDispatch opts bnode = EmittedLoop.seqLoop (bnode.numOutputRows : Int)) ∧
    (((xnorDispatch opts xnode).isTasks = true) ↔
        (opts.parallelize = true ∧
          1 < numTasks (xnode.numFilters : Int) opts.maxThreads)) ∧
    (((xnorDispatch opts xnode).isTasks = false) →
        xnorDispatch opts xnode = EmittedLoop.seqLoop (xnode.numFilters : Int)) := by
  unfold brfmDispatch xnorDispatch
  dsimp only
  refine ⟨?_, ?_, ?_, ?_⟩ <;> (split <;> simp_all [EmittedLoop.isTasks])

/-- Witness for C2 at a concrete configuration: with `parallelize = false`
(and 8 rows, 2 filters, 4 threads), both nodes fall back to the sequential
loop over the entire index range. -/
theorem C2_dispatch_iff_witness :
    brfmDispatch ⟨4, false, false, 4⟩
        ⟨⟨3, 1, BinaryWeightsScale.none⟩,
          ⟨2, 2, 2, 2, 2, 2⟩, ⟨2, 4, 2, 2, 4, 2⟩⟩
      = EmittedLoop.seqLoop 8 :=
  (C2_dispatch_iff ⟨4, false, false, 4⟩
      ⟨⟨3, 1, BinaryWeightsScale.none⟩, ⟨2, 2, 2, 2, 2, 2⟩, ⟨2, 4, 2, 2, 4, 2⟩⟩
      ⟨⟨3, 1, BinaryWeightsScale.none⟩, ⟨PaddingScheme.zeros, 0⟩,
        ⟨1, 1, 1, 1, 1, 1⟩, ⟨1, 1, 2, 1, 1, 2⟩⟩).2.1 (by decide)

/-! ## Loop bodies: LoadRow / CompressRow (BinaryReceptiveFieldMatrixNode) -/

/-- Population count of a natural number's binary representation (the
semantics of the `llvm.ctpop` intrinsic on a packed block). -/
def popCount : Nat → Nat
  | 0 => 0
  | n + 1 => (n + 1) % 2 + popCount ((n + 1) / 2)
decreasing_by exact Nat.div_lt_self (Nat.succ_pos n) (by decide)

/-- `LoadRow`: the value at linear position `t` (in (row, column, channel)
row-major order over `filterSize × filterSize × numChannels`) of the
receptive-field row gathered for output row `outputRowIndex`. The input
tensor is row-major over the input layout's extents. -/
def LoadRow (input : Nat → Int) (inputLayout : PortMemoryLayout)
    (outputLayout : PortMemoryLayout)
    (convParams : BinaryConvolutionalParameters)
    (outputRowIndex : Nat) (t : Nat) : Int :=
  let numChannels := inputLayout.active2
  let outputImageWidth := outputLayout.active1
  let filterSize := convParams.receptiveField
  let stride := convParams.stride
  let outputImageRow := outputRowIndex / outputImageWidth
  let outputImageCol := outputRowIndex % outputImageWidth
  let inputRowStart := outputImageRow * stride
  let inputColStart := outputImageCol * stride
  let rowIndex := t / (filterSize * numChannels)
  let columnIndex := (t % (filterSize * numChannels)) / numChannels
  let channelIndex := t % numChannels
  input (((inputRowStart + rowIndex) * inputLayout.extent1
    + (inputColStart + columnIndex)) * inputLayout.extent2 + channelIndex)

/-- One packed block of `CompressRow`: bit `bitIndex` is set iff
`realRow[blockStart + bitIndex] > 0`, accumulated as
`blockValue | (bitValue << bitIndex)`. -/
def compressBlockBits (realRow : Nat → Int) (blockStart nbits : Nat) : Nat :=
  (List.range nbits).foldl
    (fun blockValue bitIndex =>
      blockValue |||
        ((if 0 < realRow (blockStart + bitIndex) then 1 else 0) <<< bitIndex))
    0

/-- `CompressRow`: block `b` of the packed row for `numValues` thresholded
values. Blocks below `numValues / numBits` are complete; the final block packs
the `numValues % numBits` leftover bits. -/
def CompressRow (realRow : Nat → Int) (numValues numBits : Nat) (b : Nat) : Nat :=
  let numCompleteBlocks := numValues / numBits
  if b < numCompleteBlocks then compressBlockBits realRow (b * numBits) numBits
  else compressBlockBits realRow (numCompleteBlocks * numBits) (numValues % numBits)

/-- The constants `(fieldVolumeSize, packedRowSize)` as computed in
`BinaryReceptiveFieldMatrixNode::Compile` (lines 405-411). `elementSize` is
`sizeof(PackedBitsType)`. -/
def brfmSeqConstants (elementSize : Nat)
    (node : BinaryReceptiveFieldMatrixNode) : Nat × Nat :=
  let numBits := 8 * elementSize
  let inputDepth := node.inputMemoryLayout.active2
  let filterWidth := node.convolutionalParameters.receptiveField
  let fieldVolumeSize := filterWidth * filterWidth * inputDepth
  let packedRowSize := (fieldVolumeSize - 1) / numBits + 1
  (fieldVolumeSize, packedRowSize)

/-- The same constants, as computed independently in
`BinaryReceptiveFieldMatrixNode::GetTaskFunction` (lines 353-361). -/
def brfmTaskConstants (elementSize : Nat)
    (node : BinaryReceptiveFieldMatrixNode) : Nat × Nat :=
  let numBits := 8 * elementSize
  let inputDepth := node.inputMemoryLayout.active2
  let filterWidth := node.convolutionalParameters.receptiveField
  let fieldVolumeSize := filterWidth * filterWidth * inputDepth
  let packedRowSize := (fieldVolumeSize - 1) / numBits + 1
  (fieldVolumeSize, packedRowSize)

/-- The loop body of the sequential fallback in `Compile` (lines 436-449):
`LoadRow` into the scratch row, then `CompressRow` the `packedRowSize` blocks
written at `output + outputRowIndex * packedRowSize`. -/
def brfmSeqBodyRow (elementSize : Nat) (node : BinaryReceptiveFieldMatrixNode)
    (input : Nat → Int) (outputRowIndex : Nat) : List Nat :=
  let c := brfmSeqConstants elementSize node
  let realValueRow := LoadRow input node.inputMemoryLayout
    node.outputMemoryLayout node.convolutionalParameters outputRowIndex
  (List.range c.2).map fun b => CompressRow realValueRow c.1 (8 * elementSize) b

/-- The loop body emitted into the task function (lines 373-386): identical
`LoadRow`/`CompressRow` calls driven by the task function's own constants. -/
def brfmTaskBodyRow (elementSize : Nat) (node : BinaryReceptiveFieldMatrixNode)
    (input : Nat → Int) (outputRowIndex : Nat) : List Nat :=
  let c := brfmTaskConstants elementSize node
  let realValueRow := LoadRow input node.inputMemoryLayout
    node.outputMemoryLayout node.convolutionalParameters outputRowIndex
  (List.range c.2).map fun b => CompressRow realValueRow c.1 (8 * elementSize) b

/-- Executing the function emitted by
`BinaryReceptiveFieldMatrixNode::Compile`: the packed output buffer, listed in
write order. The tasks write disjoint row ranges; after `WaitAll`, the buffer
is their concatenation in range order. -/
def brfmExecute (elementSize : Nat) (node : BinaryReceptiveFieldMatrixNode)
    (opts : CompilerOptions) (input : Nat → Int) : List Nat :=
  match brfmDispatch opts node with
  | EmittedLoop.tasks ranges =>
      ranges.flatMap fun r =>
        (rangeIndices r).flatMap (brfmTaskBodyRow elementSize node input)
  | EmittedLoop.seqLoop count =>
      (List.range count.toNat).flatMap (brfmSeqBodyRow elementSize node input)

/-! ## Loop bodies: EmitInnerLoop / ComputeFilterOutput (BinaryXnorNode) -/

/-- `BinaryXnorNode::EmitInnerLoop` (lines 521-553): add to the running sum the
popcount of `input ^ weights` (masked by the padding mask when the layer has
zero padding) for each block in `[startBlock, startBlock + numBlocks)`. -/
def EmitInnerLoop (reshapedInput paddingMask weights : Nat → Nat)
    (hasZeroPadding : Bool) (startBlock numBlocks : Nat) : Nat :=
  ((List.range numBlocks).map fun b =>
    let blockIndex := startBlock + b
    let inputVal := reshapedInput blockIndex
    let filterVal := weights blockIndex
    let xorVal := inputVal ^^^ filterVal
    let xorVal := if hasZeroPadding then paddingMask blockIndex &&& xorVal else xorVal
    popCount xorVal).sum

/-- The vector path of `ComputeFilterOutput`: the arrays are reinterpreted as
vectors of `vectorSize` lanes (lane `l` of vector block `j` is scalar block
`j * vectorSize + l`), `EmitInnerLoop` accumulates a per-lane sum over the
`numVectorBlocks` vector blocks, and `HorizontalVectorSum` adds the lanes. -/
def vectorInnerLoopSum (reshapedInput paddingMask weights : Nat → Nat)
    (hasZeroPadding : Bool) (vectorSize numVectorBlocks : Nat) : Nat :=
  ((List.range vectorSize).map fun lane =>
    EmitInnerLoop (fun j => reshapedInput (j * vectorSize + lane))
      (fun j => paddingMask (j * vectorSize + lane))
      (fun j => weights (j * vectorSize + lane))
      hasZeroPadding 0 numVectorBlocks).sum

/-- `BinaryXnorNode::ComputeFilterOutput` (lines 750-894): the per-filter body
shared verbatim by the sequential fallback and the task function. Returns the
`outputColumns` values written for `filterIndex` (at output positions
`filterIndex * outputColumns + outputColumnIndex`). Real-valued data
(`filterMeans`, padding sums, results) is modelled over `Int`. -/
def ComputeFilterOutput (elementSize : Nat) (node : BinaryXnorNode)
    (pInput pFilterWeights pInputPaddingMask : Nat → Nat)
    (pFilterMeans pInputPaddingMaskSums : Nat → Int)
    (filterIndex : Nat) (hasZeroPadding : Bool)
    (outputColumns packedRowSize packedRowStride : Nat)
    (useVectorInstructions : Bool) (vectorSize numVectorBlocks : Nat) :
    List Int :=
  let storedElementNumBits := 8 * elementSize
  let numBits := storedElementNumBits
  let filterWidth := node.convolutionalParameters.receptiveField
  let numInputChannels := node.inputMemoryLayout.active2
  let fieldVolumeSize := filterWidth * filterWidth * numInputChannels
  let partBlockSize := fieldVolumeSize % numBits -- partialBlockSize in the source
  let weightsBegin := filterIndex * packedRowStride
  let numScalarBlocks := packedRowSize - vectorSize * numVectorBlocks
  (List.range outputColumns).map fun outputColumnIndex =>
    let inputBegin := outputColumnIndex * packedRowSize
    let paddingBegin := outputColumnIndex * packedRowStride
    let vectorXorSum :=
      if 0 < numVectorBlocks then
        vectorInnerLoopSum (fun i => pInput (inputBegin + i))
          (fun i => pInputPaddingMask (paddingBegin + i))
          (fun i => pFilterWeights (weightsBegin + i))
          hasZeroPadding vectorSize numVectorBlocks
      else 0
    let scalarSum :=
      if 0 < numScalarBlocks then
        EmitInnerLoop (fun i => pInput (inputBegin + i))
          (fun i => pInputPaddingMask (paddingBegin + i))
          (fun i => pFilterWeights (weightsBegin + i))
          hasZeroPadding (vectorSize * numVectorBlocks) numScalarBlocks
      else 0
    let xorSum : Int := (scalarSum : Int) + (vectorXorSum : Int)
    let sumInt := xorSum
    let scaledSum : Int := -2 * sumInt + ((numBits * packedRowSize : Nat) : Int)
    let scaledSumWithPadding :=
      if hasZeroPadding then scaledSum - pInputPaddingMaskSums outputColumnIndex
      else scaledSum
    let sumFloat := scaledSumWithPadding
    let adjustedSum :=
      if partBlockSize ≠ 0 then
        sumFloat - ((numBits - partBlockSize : Nat) : Int)
      else sumFloat
    if node.convolutionalParameters.weightsScale = BinaryWeightsScale.mean then
      adjustedSum * pFilterMeans filterIndex
    else adjustedSum

/-- The derived constants `BinaryXnorNode::Compile` computes before choosing a
loop shape (lines 558-613). -/
structure XnorDerived where
  outputColumns : Nat
  packedRowSize : Nat
  packedRowStride : Nat
  hasZeroPadding : Bool
  useVectorInstructions : Bool
  vectorSize : Nat
  numVectorBlocks : Nat

/-- The derived constants as computed in `BinaryXnorNode::Compile`
(lines 558-613). -/
def xnorSeqDerived (elementSize : Nat) (node : BinaryXnorNode)
    (opts : CompilerOptions) : XnorDerived :=
  let vectorSize := opts.vectorWidth
  let storedElementNumBits := 8 * elementSize
  let numBits := storedElementNumBits
  let elemSize := numBits / 8
  let filterWidth := node.convolutionalParameters.receptiveField
  let numInputChannels := node.inputMemoryLayout.active2
  let fieldVolumeSize := filterWidth * filterWidth * numInputChannels
  let outputColumns := node.outputMemoryLayout.active0 * node.outputMemoryLayout.active1
  let numStoredBlocksPerFilter := (fieldVolumeSize - 1) / storedElementNumBits + 1
  let packedRowSize := numStoredBlocksPerFilter
  let rowStrideBits := 64
  let rowStrideElementSize := rowStrideBits / 8
  let numStrideBlocks := (fieldVolumeSize - 1) / rowStrideBits + 1
  let packedRowStride := numStrideBlocks * (rowStrideElementSize / elemSize)
  let hasZeroPadding := HasPadding node.inputPaddingParameters PaddingScheme.zeros
  let useVectorInstructions := opts.allowVectorInstructions
  let numVectorBlocks := if useVectorInstructions then packedRowSize / vectorSize else 0
  let useVectorInstructions := if numVectorBlocks = 0 then false else useVectorInstructions
  ⟨outputColumns, packedRowSize, packedRowStride, hasZeroPadding,
    useVectorInstructions, vectorSize, numVectorBlocks⟩

/-- The same constants, as computed independently in
`BinaryXnorNode::GetTaskFunction` (lines 663-709). -/
def xnorTaskDerived (elementSize : Nat) (node : BinaryXnorNode)
    (opts : CompilerOptions) : XnorDerived :=
  let storedElementNumBits := 8 * elementSize
  let numBits := storedElementNumBits
  let elemSize := numBits / 8
  let filterWidth := node.convolutionalParameters.receptiveField
  let numInputChannels := node.inputMemoryLayout.active2
  let fieldVolumeSize := filterWidth * filterWidth * numInputChannels
  let outputColumns := node.outputMemoryLayout.active0 * node.outputMemoryLayout.active1
  let numStoredBlocksPerFilter := (fieldVolumeSize - 1) / storedElementNumBits + 1
  let packedRowSize := numStoredBlocksPerFilter
  let rowStrideBits := 64
  let rowStrideElementSize := rowStrideBits / 8
  let numStrideBlocks := (fieldVolumeSize - 1) / rowStrideBits + 1
  let packedRowStride := numStrideBlocks * (rowStrideElementSize / elemSize)
  let hasZeroPadding := HasPadding node.inputPaddingParameters PaddingScheme.zeros
  let useVectorInstructions := opts.allowVectorInstructions
  let vectorSize := opts.vectorWidth
  let numVectorBlocks := if useVectorInstructions then packedRowSize / vectorSize else 0
  let useVectorInstructions := if numVectorBlocks = 0 then false else useVectorInstructions
  ⟨outputColumns, packedRowSize, packedRowStride, hasZeroPadding,
    useVectorInstructions, vectorSize, numVectorBlocks⟩

/-- The per-filter body of the sequential fallback loop in
`BinaryXnorNode::Compile` (lines 630-648): `ComputeFilterOutput` with the
constants `Compile` derived. -/
def xnorSeqFilterOutput (elementSize : Nat) (node : BinaryXnorNode)
    (opts : CompilerOptions) (pInput pFilterWeights pInputPaddingMask : Nat → Nat)
    (pFilterMeans pInputPaddingMaskSums : Nat → Int) (filterIndex : Nat) :
    List Int :=
  let d := xnorSeqDerived elementSize node opts
  ComputeFilterOutput elementSize node pInput pFilterWeights pInputPaddingMask
    pFilterMeans pInputPaddingMaskSums filterIndex d.hasZeroPadding
    d.outputColumns d.packedRowSize d.packedRowStride d.useVectorInstructions
    d.vectorSize d.numVectorBlocks

/-- The per-filter body emitted into the task function
(`BinaryXnorNode::GetTaskFunction` lines 725-742): `ComputeFilterOutput` with
the task function's own constants. -/
def xnorTaskFilterOutput (elementSize : Nat) (node : BinaryXnorNode)
    (opts : CompilerOptions) (pInput pFilterWeights pInputPaddingMask : Nat → Nat)
    (pFilterMeans pInputPaddingMaskSums : Nat → Int) (filterIndex : Nat) :
    List Int :=
  let d := xnorTaskDerived elementSize node opts
  ComputeFilterOutput elementSize node pInput pFilterWeights pInputPaddingMask
    pFilterMeans pInputPaddingMaskSums filterIndex d.hasZeroPadding
    d.outputColumns d.packedRowSize d.packedRowStride d.useVectorInstructions
    d.vectorSize d.numVectorBlocks

/-- Executing the function emitted by `BinaryXnorNode::Compile`: the output
buffer (one row of `outputColumns` values per filter), listed in write order. -/
def xnorExecute (elementSize : Nat) (node : BinaryXnorNode)
    (opts : CompilerOptions) (pInput pFilterWeights pInputPaddingMask : Nat → Nat)
    (pFilterMeans pInputPaddingMaskSums : Nat → Int) : List Int :=
  match xnorDispatch opts node with
  | EmittedLoop.tasks ranges =>
      ranges.flatMap fun r =>
        (rangeIndices r).flatMap (xnorTaskFilterOutput elementSize node opts
          pInput pFilterWeights pInputPaddingMask pFilterMeans
          pInputPaddingMaskSums)
  | EmittedLoop.seqLoop count =>
      (List.range count.toNat).flatMap (xnorSeqFilterOutput elementSize node opts
        pInput pFilterWeights pInputPaddingMask pFilterMeans
        pInputPaddingMaskSums)

/-- The task ranges cover `[0, n)` exactly (shared by claims C1 and C3). -/
theorem taskSplitRanges_tiles (n d : Nat) (hn : 1 ≤ n) :
    (taskSplitRanges (n : Int) (d : Int)).flatMap rangeIndices = List.range n := by
  rw [taskSplitRanges_flat n d hn]
  exact natTiling n ((n - 1) / d + 1) (Nat.le_add_left 1 _) hn

/-- Dispatching any per-index body over the task ranges and concatenating the
per-range results visits exactly the indices `0, ..., n-1` in order. -/
theorem tasks_flatMap_eq_range {α : Type} (n : Nat) (D : Int) (body : Nat → List α)
    (hn : 1 ≤ n) (hD : 0 ≤ D) :
    ((taskSplitRanges (n : Int) D).flatMap fun r => (rangeIndices r).flatMap body)
      = (List.range n).flatMap body := by
  obtain ⟨d, rfl⟩ : ∃ d : Nat, D = (d : Int) :=
    ⟨D.toNat, (Int.toNat_of_nonneg hD).symm⟩
  rw [← List.flatMap_assoc, taskSplitRanges_tiles n d hn]

/-- Claim C3: for both nodes with a sequential and a parallel-task lowering
path, the loop body emitted into the task function computes the same
per-index result as the body emitted by the sequential fallback loop
(`brfmTaskBodyRow = brfmSeqBodyRow`, `xnorTaskFilterOutput =
xnorSeqFilterOutput`), and executing the compiled function with parallelism
forced on and forced off produces identical outputs for the same input. -/
theorem C3_parallel_eq_sequential (elementSize : Nat)
    (bnode : BinaryReceptiveFieldMatrixNode) (xnode : BinaryXnorNode)
    (opts : CompilerOptions) (input : Nat → Int)
    (pInput pFilterWeights pInputPaddingMask : Nat → Nat)
    (pFilterMeans pInputPaddingMaskSums : Nat → Int)
    (hb : 1 ≤ bnode.numOutputRows) (hx : 1 ≤ xnode.numFilters)
    (hD : 1 ≤ opts.maxThreads) :
    (∀ i, brfmTaskBodyRow elementSize bnode input i
        = brfmSeqBodyRow elementSize bnode input i) ∧
    brfmExecute elementSize bnode { opts with parallelize := true } input
      = brfmExecute elementSize bnode { opts with parallelize := false } input ∧
    (∀ f, xnorTaskFilterOutput elementSize xnode opts pInput pFilterWeights
          pInputPaddingMask pFilterMeans pInputPaddingMaskSums f
        = xnorSeqFilterOutput elementSize xnode opts pInput pFilterWeights
          pInputPaddingMask pFilterMeans pInputPaddingMaskSums f) ∧
    xnorExecute elementSize xnode { opts with parallelize := true } pInput
        pFilterWeights pInputPaddingMask pFilterMeans pInputPaddingMaskSums
      = xnorExecute elementSize xnode { opts with parallelize := false } pInput
        pFilterWeights pInputPaddingMask pFilterMeans pInputPaddingMaskSums := by
  refine ⟨fun i => rfl, ?_, fun f => rfl, ?_⟩
  · have hfalse : brfmDispatch { opts with parallelize := false } bnode
        = EmittedLoop.seqLoop (bnode.numOutputRows : Int) := by
      unfold brfmDispatch
      rw [if_neg]
      rintro ⟨h1, -⟩
      exact Bool.false_ne_true h1
    by_cases hpar : 1 < numTasks (bnode.numOutputRows : Int) opts.maxThreads
    · have htrue : brfmDispatch { opts with parallelize := true } bnode
          = EmittedLoop.tasks
              (taskSplitRanges (bnode.numOutputRows : Int) opts.maxThreads) := by
        unfold brfmDispatch
        rw [if_pos ⟨rfl, hpar⟩]
      unfold brfmExecute
      rw [htrue, hfalse]
      dsimp only
      rw [Int.toNat_ofNat]
      exact tasks_flatMap_eq_range bnode.numOutputRows opts.maxThreads
        (brfmTaskBodyRow elementSize bnode input) hb (by omega)
    · have htrue : brfmDispatch { opts with parallelize := true } bnode
          = EmittedLoop.seqLoop (bnode.numOutputRows : Int) := by
        unfold brfmDispatch
        rw [if_neg]
        rintro ⟨-, h2⟩
        exact hpar h2
      unfold brfmExecute
      rw [htrue, hfalse]
  · have hfalse : xnorDispatch { opts with parallelize := false } xnode
        = EmittedLoop.seqLoop (xnode.numFilters : Int) := by
      unfold xnorDispatch
      rw [if_neg]
      rintro ⟨h1, -⟩
      exact Bool.false_ne_true h1
    by_cases hpar : 1 < numTasks (xnode.numFilters : Int) opts.maxThreads
    · have htrue : xnorDispatch { opts with parallelize := true } xnode
          = EmittedLoop.tasks
              (taskSplitRanges (xnode.numFilters : Int) opts.maxThreads) := by
        unfold xnorDispatch
        rw [if_pos ⟨rfl, hpar⟩]
      unfold xnorExecute
      rw [htrue, hfalse]
      dsimp only
      rw [Int.toNat_ofNat]
      exact tasks_flatMap_eq_range xnode.numFilters opts.maxThreads
        (xnorTaskFilterOutput elementSize xnode { opts with parallelize := true }
          pInput pFilterWeights pInputPaddingMask pFilterMeans
          pInputPaddingMaskSums) hx (by omega)
    · have htrue : xnorDispatch { opts with parallelize := true } xnode
          = EmittedLoop.seqLoop (xnode.numFilters : Int) := by
        unfold xnorDispatch
        rw [if_neg]
        rintro ⟨-, h2⟩
        exact hpar h2
      unfold xnorExecute
      rw [htrue, hfalse]
      rfl

/-- Witness for C3 at a concrete node (2×2 output image, 1×1 receptive field,
one channel), 2 threads, 8-bit packed blocks: the parallel and sequential
executions agree. -/
theorem C3_parallel_eq_sequential_witness :
    (1 : Int) ≤ 2 ∧
    brfmExecute 1 ⟨⟨1, 1, BinaryWeightsScale.none⟩, ⟨2, 2, 1, 2, 2, 1⟩, ⟨2, 2, 1, 2, 2, 1⟩⟩
        ⟨2, true, false, 4⟩ (fun i => 1 - (i : Int))
      = brfmExecute 1 ⟨⟨1, 1, BinaryWeightsScale.none⟩, ⟨2, 2, 1, 2, 2, 1⟩, ⟨2, 2, 1, 2, 2, 1⟩⟩
        ⟨2, false, false, 4⟩ (fun i => 1 - (i : Int)) :=
  ⟨by decide,
    (C3_parallel_eq_sequential 1
      ⟨⟨1, 1, BinaryWeightsScale.none⟩, ⟨2, 2, 1, 2, 2, 1⟩, ⟨2, 2, 1, 2, 2, 1⟩⟩
      ⟨⟨1, 1, BinaryWeightsScale.none⟩, ⟨PaddingScheme.zeros, 0⟩,
        ⟨2, 2, 1, 2, 2, 1⟩, ⟨2, 2, 2, 2, 2, 2⟩⟩
      ⟨2, false, false, 4⟩ (fun i => 1 - (i : Int))
      (fun i => i % 4) (fun i => (i + 1) % 4) (fun _ => 0)
      (fun i => (i : Int)) (fun i => (i : Int))
      (by decide) (by decide) (by decide)).2.1⟩

/-! ## TransformContext::GetNodeAction (ModelTransformer.h lines 37-97) -/

/-- `NodeAction` (ModelTransformer.h lines 38-43). -/
inductive NodeAction where
  | abstain
  | refine
  | compile
deriving DecidableEq

/-- One step of scanning the registered node-action functions in registration
order: a non-abstaining result replaces the override collected so far. -/
def nodeActionStep {Node : Type} (node : Node) (acc : Option NodeAction)
    (f : Node → NodeAction) : Option NodeAction :=
  match f node with
  | NodeAction.abstain => acc
  | action => some action

/-- Modelled from the spec: `TransformContext::GetNodeAction` — its
implementation file is not among the sampled sources; the header documents it
(ModelTransformer.h lines 82-92): if any custom node action functions have
been registered, return the result of the last one that returns something
other than `NodeAction::abstain`; if all of the functions abstain, or there
are no custom functions, return `NodeAction::compile` if the node is
compilable, otherwise `NodeAction::refine`. `_nodeActionFunctions` holds the
functions in registration order; `isNodeCompilable` stands for
`TransformContext::IsNodeCompilable` under the current compiler context. -/
def GetNodeAction {Node : Type} (nodeActionFunctions : List (Node → NodeAction))
    (isNodeCompilable : Node → Bool) (node : Node) : NodeAction :=
  match nodeActionFunctions.foldl (nodeActionStep node) none with
  | some action => action
  | none =>
      if isNodeCompilable node then NodeAction.compile else NodeAction.refine

theorem nodeActionStep_of_abstain {Node : Type} (node : Node)
    (acc : Option NodeAction) (f : Node → NodeAction)
    (h : f node = NodeAction.abstain) : nodeActionStep node acc f = acc := by
  simp [nodeActionStep, h]

theorem nodeActionStep_of_ne {Node : Type} (node : Node)
    (acc : Option NodeAction) (f : Node → NodeAction)
    (h : f node ≠ NodeAction.abstain) :
    nodeActionStep node acc f = some (f node) := by
  unfold nodeActionStep
  cases hf : f node <;> simp_all

theorem foldl_nodeActionStep_abstain {Node : Type} (node : Node)
    (l : List (Node → NodeAction)) (h : ∀ f ∈ l, f node = NodeAction.abstain) :
    ∀ acc, l.foldl (nodeActionStep node) acc = acc := by
  induction l with
  | nil => intro acc; rfl
  | cons f l ih =>
      intro acc
      rw [List.foldl_cons,
        nodeActionStep_of_abstain node acc f (h f (List.mem_cons_self f l))]
      exact ih (fun g hg => h g (List.mem_cons_of_mem f hg)) acc

/-- Claim C4: for every node, `GetNodeAction` returns the result of the last
registered node-action function that returns something other than `abstain`;
if all registered functions abstain, or none are registered, it returns
`compile` when the node is compilable under the current compiler context and
`refine` otherwise. -/
theorem C4_getNodeAction_policy {Node : Type}
    (fns : List (Node → NodeAction)) (isNodeCompilable : Node → Bool)
    (node : Node) :
    ((∀ f ∈ fns, f node = NodeAction.abstain) →
        GetNodeAction fns isNodeCompilable node
          = (if isNodeCompilable node then NodeAction.compile
             else NodeAction.refine)) ∧
    (∀ (l1 : List (Node → NodeAction)) (f : Node → NodeAction)
        (l2 : List (Node → NodeAction)), fns = l1 ++ f :: l2 →
        f node ≠ NodeAction.abstain →
        (∀ g ∈ l2, g node = NodeAction.abstain) →
        GetNodeAction fns isNodeCompilable node = f node) := by
  constructor
  · intro h
    unfold GetNodeAction
    rw [foldl_nodeActionStep_abstain node fns h none]
  · rintro l1 f l2 rfl hf hl2
    unfold GetNodeAction
    rw [List.foldl_append, List.foldl_cons, nodeActionStep_of_ne node _ f hf,
      foldl_nodeActionStep_abstain node l2 hl2]

/-- Witness for C4: with registered functions returning `refine`, `compile`,
`abstain` (in that order) the action is `compile` (the last non-abstaining
result), regardless of compilability. -/
theorem C4_getNodeAction_policy_witness :
    GetNodeAction
        [fun _ => NodeAction.refine, fun _ => NodeAction.compile,
          fun _ => NodeAction.abstain]
        (fun _ => false) (0 : Nat)
      = NodeAction.compile :=
  (C4_getNodeAction_policy
      [fun _ => NodeAction.refine, fun _ => NodeAction.compile,
        fun _ => NodeAction.abstain]
      (fun _ => false) 0).2
    [fun _ => NodeAction.refine] (fun _ => NodeAction.compile)
    [fun _ => NodeAction.abstain] rfl (by decide) (by simp)

/-! ## ModelTransformer::CopySubmodelOnto and copy elision
(ModelTransformer.h lines 130-179, 382-388) -/

/-- A node of the simplified graph model: a stable identifier and the list of
output ports its inputs reference (ports identified by the producing node's
identifier; nodes have a single output port). -/
structure GNode where
  nodeId : Nat
  nodeInputs : List Nat
deriving DecidableEq

/-- A model: an ordered, owning list of nodes. -/
structure GModel where
  nodes : List GNode
deriving DecidableEq

inductive TransformError where
  | unmappedPort
deriving DecidableEq

/-- Querying the correspondence map (`GetCorrespondingInputs`): an entry that
was never established is an `UnmappedPort` error. -/
def resolveInput (corr : List (Nat × Nat)) (i : Nat) :
    Except TransformError Nat :=
  match corr.lookup i with
  | some j => Except.ok j
  | none => Except.error TransformError.unmappedPort

/-- A fresh identifier for a copied node (the model assigns identifiers). -/
def freshId (m : GModel) : Nat :=
  (m.nodes.map GNode.nodeId).foldr max 0 + 1

/-- Modelled from the spec: one node-copy step of
`ModelTransformer::CopySubmodelOnto` (whose implementation file is not among
the sampled sources; the header documents it at ModelTransformer.h lines
130-179 with `ShouldCopyNode` at line 382). The copy's inputs are the
originals resolved through the correspondence map; copy elision: "if a node
is to be copied to its existing location (that is, the new copy will have the
same inputs as the original node), then no copy is performed" and the
original node is reused — its output is mapped to itself. Otherwise a copy
with a fresh identifier is appended to the destination model. -/
def copyNodeOnto (acc : GModel × List (Nat × Nat)) (n : GNode) :
    Except TransformError (GModel × List (Nat × Nat)) :=
  match n.nodeInputs.mapM (resolveInput acc.2) with
  | Except.error e => Except.error e
  | Except.ok newInputs =>
      if newInputs = n.nodeInputs then
        Except.ok (acc.1, (n.nodeId, n.nodeId) :: acc.2)
      else
        Except.ok (⟨acc.1.nodes ++ [⟨freshId acc.1, newInputs⟩]⟩,
          (n.nodeId, freshId acc.1) :: acc.2)

/-- Modelled from the spec: `ModelTransformer::CopySubmodelOnto` — processes
the submodel's nodes in dependency order, starting from the correspondence
that matches the submodel's designated boundary inputs positionally with the
caller-supplied `onto` outputs. -/
def CopySubmodelOnto (submodelNodes : List GNode) (destModel : GModel)
    (boundaryInputs onto : List Nat) :
    Except TransformError (GModel × List (Nat × Nat)) :=
  submodelNodes.foldlM copyNodeOnto (destModel, boundaryInputs.zip onto)

/-- The submodel is a dependency-closed slice: each node's inputs refer to the
designated boundary inputs or to earlier submodel nodes. -/
def ClosedSubmodel (processed : List Nat) : List GNode → Bool
  | [] => true
  | n :: rest =>
      (n.nodeInputs.all fun i => decide (i ∈ processed)) &&
        ClosedSubmodel (n.nodeId :: processed) rest

/-- The correspondence map an in-place no-op graft produces: every submodel
node's output mapped to itself, on top of the boundary-to-onto zip. -/
def inPlaceCorr (sub : List GNode) (boundary : List Nat) : List (Nat × Nat) :=
  (sub.map fun n => (n.nodeId, n.nodeId)).reverse ++ boundary.zip boundary

theorem lookup_zip_self (l : List Nat) : ∀ i ∈ l, (l.zip l).lookup i = some i := by
  induction l with
  | nil => intro i h; simp at h
  | cons a l ih =>
      intro i hi
      rw [List.zip_cons_cons, List.lookup_cons]
      by_cases h : i = a
      · subst h; simp
      · have hmem : i ∈ l := by
          rcases List.mem_cons.1 hi with h' | h'
          · exact absurd h' h
          · exact h'
        have hbeq : (i == a) = false := by simpa using h
        rw [hbeq]
        exact ih i hmem

theorem mapM_resolve_id (corr : List (Nat × Nat)) (l : List Nat)
    (h : ∀ i ∈ l, corr.lookup i = some i) :
    l.mapM (resolveInput corr) = Except.ok l := by
  induction l with
  | nil => rfl
  | cons i l ih =>
      rw [List.mapM_cons]
      have hi : resolveInput corr i = Except.ok i := by
        unfold resolveInput
        rw [h i (List.mem_cons_self i l)]
      rw [hi, ih fun j hj => h j (List.mem_cons_of_mem i hj)]
      rfl

theorem copy_elides (sub : List GNode) :
    ∀ (m : GModel) (corr : List (Nat × Nat)) (processed : List Nat),
      (∀ i ∈ processed, corr.lookup i = some i) →
      ClosedSubmodel processed sub = true →
      sub.foldlM copyNodeOnto (m, corr)
        = Except.ok (m, (sub.map fun n => (n.nodeId, n.nodeId)).reverse ++ corr) := by
  induction sub with
  | nil => intro m corr processed _ _; rfl
  | cons n rest ih =>
      intro m corr processed hcorr hclosed
      have hparts := hclosed
      unfold ClosedSubmodel at hparts
      rw [Bool.and_eq_true] at hparts
      obtain ⟨hall, hrest⟩ := hparts
      have hinputs : ∀ i ∈ n.nodeInputs, corr.lookup i = some i := by
        intro i hi
        have := (List.all_eq_true.1 hall) i hi
        exact hcorr i (of_decide_eq_true this)
      have hstep : copyNodeOnto (m, corr) n
          = Except.ok (m, (n.nodeId, n.nodeId) :: corr) := by
        unfold copyNodeOnto
        rw [show (m, corr).2 = corr from rfl,
          mapM_resolve_id corr n.nodeInputs hinputs]
        dsimp only
        rw [if_pos rfl]
      rw [List.foldlM_cons, hstep]
      have hcorr' : ∀ i ∈ n.nodeId :: processed,
          ((n.nodeId, n.nodeId) :: corr).lookup i = some i := by
        intro i hi
        rw [List.lookup_cons]
        by_cases h : i = n.nodeId
        · subst h; simp
        · have hmem : i ∈ processed := by
            rcases List.mem_cons.1 hi with h' | h'
            · exact absurd h' h
            · exact h'
          have hbeq : (i == n.nodeId) = false := by simpa using h
          rw [hbeq]
          exact hcorr i hmem
      have hih := ih m ((n.nodeId, n.nodeId) :: corr) (n.nodeId :: processed)
        hcorr' hrest
      simpa [List.append_assoc] using hih

/-- Claim C5: an in-place graft in which source and destination locations
coincide (`onto` is the submodel's own boundary inputs) is a no-op: every
node's copy would reference exactly the same inputs as the original, so
`CopySubmodelOnto` skips every copy and reuses the original nodes — the
destination model is returned unchanged (identical node identifiers and
ports) and each submodel node's output corresponds to itself. -/
theorem C5_inPlace_graft_noop (sub : List GNode) (dest : GModel)
    (boundary : List Nat) (hclosed : ClosedSubmodel boundary sub = true) :
    CopySubmodelOnto sub dest boundary boundary
      = Except.ok (dest, inPlaceCorr sub boundary) :=
  copy_elides sub dest (boundary.zip boundary) boundary
    (lookup_zip_self boundary) hclosed

/-- Witness for C5: grafting the two-node chain `2 → 3` (with boundary input
`0`) onto its own location in a three-node model leaves the model unchanged. -/
theorem C5_inPlace_graft_noop_witness :
    CopySubmodelOnto [⟨2, [0]⟩, ⟨3, [2]⟩] ⟨[⟨0, []⟩, ⟨2, [0]⟩, ⟨3, [2]⟩]⟩ [0] [0]
      = Except.ok (⟨[⟨0, []⟩, ⟨2, [0]⟩, ⟨3, [2]⟩]⟩,
          inPlaceCorr [⟨2, [0]⟩, ⟨3, [2]⟩] [0]) :=
  C5_inPlace_graft_noop [⟨2, [0]⟩, ⟨3, [2]⟩] ⟨[⟨0, []⟩, ⟨2, [0]⟩, ⟨3, [2]⟩]⟩ [0]
    (by decide)

/-! ## InputPort binding and the bidirectional reference invariant
(InputPort.cpp, embedded in HardSigmoidActivation.h lines 79-187) -/

/-- The port graph state: the live input ports, the output ports, each
input's `_referencedPort` (`none` = unbound), and each output's reference
set. Ports are identified by numbers. -/
structure PortGraph where
  ins : List Nat
  outs : List Nat
  inputRef : Nat → Option Nat
  outputRefs : Nat → List Nat

/-- Modelled from the spec: `OutputPortBase::AddReference` (its source is not
among the sampled files) — "the output's reference set gains the input". -/
def addReference (s : PortGraph) (o i : Nat) : PortGraph :=
  { s with outputRefs := fun p =>
      if p = o then s.outputRefs o ++ [i] else s.outputRefs p }

/-- Modelled from the spec: `OutputPortBase::RemoveReference` — "unbinding
removes it" from the output's reference set. -/
def removeReference (s : PortGraph) (o i : Nat) : PortGraph :=
  { s with outputRefs := fun p =>
      if p = o then (s.outputRefs o).filter (fun j => j != i)
      else s.outputRefs p }

/-- The shared `if (_referencedPort) _referencedPort->RemoveReference(this);`
step of `SetReferencedPort` (line 162-165) and the destructor (lines 106-112). -/
def detachInput (s : PortGraph) (i : Nat) : PortGraph :=
  match s.inputRef i with
  | some old => removeReference s old i
  | none => s

/-- `InputPortBase::SetReferencedPort` (lines 160-171): remove this input from
the old referenced port's set, add it to the new port's set, and record the
reference. -/
def setReferencedPort (s : PortGraph) (i : Nat) (input : Option Nat) : PortGraph :=
  let s1 := detachInput s i
  let s2 := match input with
            | some o => addReference s1 o i
            | none => s1
  { s2 with inputRef := fun j => if j = i then input else s2.inputRef j }

/-- `InputPortBase::ClearReferencedPort` (lines 173-176): only nulls
`_referencedPort`; the old referenced port's reference set is left untouched. -/
def clearReferencedPort (s : PortGraph) (i : Nat) : PortGraph :=
  { s with inputRef := fun j => if j = i then none else s.inputRef j }

/-- `InputPortBase::~InputPortBase` (lines 106-112): if bound, remove this
input from the referenced port's set; the input port then ceases to exist. -/
def destroyInputPort (s : PortGraph) (i : Nat) : PortGraph :=
  let s1 := detachInput s i
  { s1 with ins := s1.ins.filter (fun j => j != i),
            inputRef := fun j => if j = i then none else s1.inputRef j }

/-- The bidirectional consistency invariant: every live input referencing an
output appears in that output's reference set, and every entry of a reference
set is a live input referencing that output. -/
def Consistent (s : PortGraph) : Prop :=
  (∀ i ∈ s.ins, ∀ o ∈ s.outs, s.inputRef i = some o → i ∈ s.outputRefs o) ∧
  (∀ o ∈ s.outs, ∀ i ∈ s.outputRefs o, i ∈ s.ins ∧ s.inputRef i = some o)

instance (s : PortGraph) : Decidable (Consistent s) := by
  unfold Consistent
  infer_instance

theorem detachInput_ins (s : PortGraph) (i : Nat) :
    (detachInput s i).ins = s.ins := by
  unfold detachInput
  cases s.inputRef i <;> rfl

theorem detachInput_outs (s : PortGraph) (i : Nat) :
    (detachInput s i).outs = s.outs := by
  unfold detachInput
  cases s.inputRef i <;> rfl

theorem detachInput_inputRef (s : PortGraph) (i : Nat) :
    (detachInput s i).inputRef = s.inputRef := by
  unfold detachInput
  cases s.inputRef i <;> rfl

theorem detachInput_mem_ne (s : PortGraph) (i : Nat) {j : Nat} (h : j ≠ i)
    (o : Nat) : j ∈ (detachInput s i).outputRefs o ↔ j ∈ s.outputRefs o := by
  unfold detachInput
  cases s.inputRef i with
  | none => rfl
  | some old =>
      unfold removeReference
      dsimp only
      by_cases ho : o = old
      · subst ho
        rw [if_pos rfl, List.mem_filter]
        simp [h]
      · rw [if_neg ho]

theorem detachInput_not_mem (s : PortGraph) (i : Nat) (hs : Consistent s)
    {o : Nat} (ho : o ∈ s.outs) : i ∉ (detachInput s i).outputRefs o := by
  unfold detachInput
  cases href : s.inputRef i with
  | none =>
      intro hmem
      have := (hs.2 o ho i hmem).2
      rw [href] at this
      cases this
  | some old =>
      unfold removeReference
      dsimp only
      by_cases hoo : o = old
      · subst hoo
        rw [if_pos rfl, List.mem_filter]
        rintro ⟨-, hfalse⟩
        simp at hfalse
      · rw [if_neg hoo]
        intro hmem
        have := (hs.2 o ho i hmem).2
        rw [href] at this
        exact hoo (by injection this with h; exact h.symm)

theorem setReferencedPort_consistent (s : PortGraph) (i : Nat) (r : Option Nat)
    (hs : Consistent s) (hi : i ∈ s.ins) (hr : ∀ o, r = some o → o ∈ s.outs) :
    Consistent (setReferencedPort s i r) := by
  obtain ⟨h1, h2⟩ := hs
  cases r with
  | none =>
      constructor
      · intro j hj o ho href
        simp only [setReferencedPort, detachInput_ins, detachInput_outs,
          detachInput_inputRef] at hj ho href ⊢
        by_cases hji : j = i
        · rw [if_pos hji] at href
          cases href
        · rw [if_neg hji] at href
          rw [detachInput_mem_ne s i hji o]
          exact h1 j hj o ho href
      · intro o ho j hmem
        simp only [setReferencedPort, detachInput_ins, detachInput_outs,
          detachInput_inputRef] at ho hmem ⊢
        by_cases hji : j = i
        · subst hji
          exact absurd hmem (detachInput_not_mem s j ⟨h1, h2⟩ ho)
        · rw [detachInput_mem_ne s i hji o] at hmem
          obtain ⟨hjin, hjref⟩ := h2 o ho j hmem
          exact ⟨hjin, by rw [if_neg hji]; exact hjref⟩
  | some ot =>
      have hot : ot ∈ s.outs := hr ot rfl
      constructor
      · intro j hj o ho href
        simp only [setReferencedPort, addReference, detachInput_ins,
          detachInput_outs] at hj ho href ⊢
        by_cases hji : j = i
        · rw [if_pos hji] at href
          injection href with hoo
          subst hoo
          rw [if_pos rfl]
          exact List.mem_append_right _ (List.mem_singleton.2 hji)
        · rw [if_neg hji, detachInput_inputRef] at href
          have hj' : j ∈ s.outputRefs o := h1 j hj o ho href
          by_cases hoo : o = ot
          · subst hoo
            rw [if_pos rfl]
            exact List.mem_append_left _ ((detachInput_mem_ne s i hji o).2 hj')
          · rw [if_neg hoo]
            exact (detachInput_mem_ne s i hji o).2 hj'
      · intro o ho j hmem
        simp only [setReferencedPort, addReference, detachInput_ins,
          detachInput_outs] at ho hmem ⊢
        by_cases hoo : o = ot
        · subst hoo
          rw [if_pos rfl] at hmem
          rcases List.mem_append.1 hmem with hmem' | hmem'
          · have hji : j ≠ i := by
              intro hji
              subst hji
              exact detachInput_not_mem s j ⟨h1, h2⟩ ho hmem'
            rw [detachInput_mem_ne s i hji o] at hmem'
            obtain ⟨hjin, hjref⟩ := h2 o ho j hmem'
            exact ⟨hjin, by rw [if_neg hji, detachInput_inputRef]; exact hjref⟩
          · have hji : j = i := List.mem_singleton.1 hmem'
            exact ⟨hji ▸ hi, by rw [if_pos hji]⟩
        · rw [if_neg hoo] at hmem
          have hji : j ≠ i := by
            intro hji
            subst hji
            exact detachInput_not_mem s j ⟨h1, h2⟩ ho hmem
          rw [detachInput_mem_ne s i hji o] at hmem
          obtain ⟨hjin, hjref⟩ := h2 o ho j hmem
          exact ⟨hjin, by rw [if_neg hji, detachInput_inputRef]; exact hjref⟩

theorem destroyInputPort_consistent (s : PortGraph) (i : Nat)
    (hs : Consistent s) : Consistent (destroyInputPort s i) := by
  obtain ⟨h1, h2⟩ := hs
  constructor
  · intro j hj o ho href
    simp only [destroyInputPort, detachInput_ins, detachInput_outs] at hj ho href ⊢
    have hji : j ≠ i := by
      intro hji
      subst hji
      rw [if_pos rfl] at href
      cases href
    rw [if_neg hji, detachInput_inputRef] at href
    have hjin : j ∈ s.ins := (List.mem_filter.1 hj).1
    rw [detachInput_mem_ne s i hji o]
    exact h1 j hjin o ho href
  · intro o ho j hmem
    simp only [destroyInputPort, detachInput_ins, detachInput_outs] at ho hmem ⊢
    have hji : j ≠ i := by
      intro hji
      subst hji
      exact detachInput_not_mem s j ⟨h1, h2⟩ ho hmem
    rw [detachInput_mem_ne s i hji o] at hmem
    obtain ⟨hjin, hjref⟩ := h2 o ho j hmem
    refine ⟨List.mem_filter.2 ⟨hjin, by simpa using hji⟩, ?_⟩
    rw [if_neg hji, detachInput_inputRef]
    exact hjref

/-- Claim C6, counterexample to the claim as stated: binding input port 0 to
output port 5 yields a consistent state, but `ClearReferencedPort` then only
nulls the input's reference while leaving the input in the output's reference
set — the bidirectional invariant is broken after this unbind. -/
theorem C6_clearReferencedPort_counterexample :
    Consistent (setReferencedPort ⟨[0], [5], fun _ => none, fun _ => []⟩ 0 (some 5)) ∧
    ¬ Consistent (clearReferencedPort
        (setReferencedPort ⟨[0], [5], fun _ => none, fun _ => []⟩ 0 (some 5)) 0) := by
  constructor
  · decide
  · decide

/-- Claim C6 (amended): after any bind or unbind performed through
`SetReferencedPort` (which removes the input from the old port's reference set
and adds it to the new one's), and after input-port destruction (which removes
the input from its referenced port's set), the bidirectional consistency
invariant holds. `ClearReferencedPort`, by contrast, only nulls the input's
reference and can leave the input in the output's reference set (see the
counterexample). -/
theorem C6_bind_unbind_destroy_consistent (s : PortGraph) (i : Nat)
    (r : Option Nat) (hs : Consistent s) (hi : i ∈ s.ins)
    (hr : ∀ o, r = some o → o ∈ s.outs) :
    Consistent (setReferencedPort s i r) ∧ Consistent (destroyInputPort s i) :=
  ⟨setReferencedPort_consistent s i r hs hi hr,
    destroyInputPort_consistent s i hs⟩

/-- Witness for C6's amended theorem: in a two-input state, rebinding input 0
from output 5 to output 6 and destroying input 0 both preserve consistency. -/
theorem C6_bind_unbind_destroy_consistent_witness :
    Consistent (setReferencedPort
      ⟨[0, 1], [5, 6], fun j => if j = 0 then some 5 else some 6,
        fun o => if o = 5 then [0] else if o = 6 then [1] else []⟩
      0 (some 6)) ∧
    Consistent (destroyInputPort
      ⟨[0, 1], [5, 6], fun j => if j = 0 then some 5 else some 6,
        fun o => if o = 5 then [0] else if o = 6 then [1] else []⟩ 0) :=
  C6_bind_unbind_destroy_consistent
    ⟨[0, 1], [5, 6], fun j => if j = 0 then some 5 else some 6,
      fun o => if o = 5 then [0] else if o = 6 then [1] else []⟩
    0 (some 6) (by decide) (by decide)
    (by intro o h; injection h with h; simp [h.symm])

/-! ## InputPort queries (InputPort.cpp lines 120-158) -/

/-- `utilities::LogicExceptionErrors` values these sources throw. -/
inductive LogicExceptionErrors where
  | illegalState
  | notImplemented
deriving DecidableEq

/-- What an input port sees of its referenced output port: the port's size. -/
structure OutputPortData where
  size : Nat
deriving DecidableEq

/-- An element of a port: the referenced port together with an element index
(`PortElementsBase(GetReferencedPort()).GetElement(index)`). -/
structure PortElementData where
  port : OutputPortData
  index : Nat
deriving DecidableEq

/-- `InputPortBase::IsValid` (lines 155-158): `_referencedPort != nullptr`. -/
def IsValid (referencedPort : Option OutputPortData) : Bool :=
  referencedPort.isSome

/-- `InputPortBase::GetReferencedPort` (lines 136-144): throws
`LogicException(illegalState)` ("Error: empty input port.") when the port is
unbound, otherwise returns the referenced port. -/
def GetReferencedPort (referencedPort : Option OutputPortData) :
    Except LogicExceptionErrors OutputPortData :=
  match referencedPort with
  | none => Except.error LogicExceptionErrors.illegalState
  | some p => Except.ok p

/-- `InputPortBase::GetInputElement` (lines 120-129): throws
`LogicException(illegalState)` when the port is unbound, otherwise the
element of the referenced port at `index`. -/
def GetInputElement (referencedPort : Option OutputPortData) (index : Nat) :
    Except LogicExceptionErrors PortElementData :=
  match referencedPort with
  | none => Except.error LogicExceptionErrors.illegalState
  | some p => Except.ok ⟨p, index⟩

/-- `InputPortBase::Size` (lines 146-153): `0` when the port is unbound,
otherwise the referenced port's size — no error in either case. -/
def InputPortSize (referencedPort : Option OutputPortData) : Nat :=
  if IsValid referencedPort = false then 0
  else
    match GetReferencedPort referencedPort with
    | Except.ok p => p.size
    | Except.error _ => 0

/-- Claim C7: querying an unbound input port — `GetReferencedPort` and
`GetInputElement` — raises an `IllegalState` error. -/
theorem C7_unbound_query_illegalState :
    GetReferencedPort none = Except.error LogicExceptionErrors.illegalState ∧
    ∀ index : Nat,
      GetInputElement none index
        = Except.error LogicExceptionErrors.illegalState :=
  ⟨rfl, fun _ => rfl⟩

/-- Claim C10: `Size()` on an unbound input port returns 0 without raising an
error (the function is total); on a bound port it returns the referenced
output port's size. -/
theorem C10_size_total :
    InputPortSize none = 0 ∧
    ∀ p : OutputPortData, InputPortSize (some p) = p.size :=
  ⟨rfl, fun _ => rfl⟩

/-! ## IRHeaderWriter: the exported-function filter
(IRHeaderWriter.cpp lines 50-85, 294-303) -/

/-- An LLVM function as the header writer sees it:
`hasName()` / `getName()`. -/
structure LLVMFunctionDecl where
  name : Option String
deriving DecidableEq

/-- `ShouldWriteFunction` (lines 51-85): a function gets a header signature
iff it has a name and the name does not begin with `_Node__`, `llvm.`,
`clock_gettime`, `cblas`, `printf` or `_` (`name.find(p) == 0` is a
starts-with test). -/
def ShouldWriteFunction (f : LLVMFunctionDecl) : Bool :=
  match f.name with
  | none => false
  | some functionName =>
      if functionName.startsWith "_Node__" then false
      else if functionName.startsWith "llvm." then false
      else if functionName.startsWith "clock_gettime" then false
      else if functionName.startsWith "cblas" then false
      else if functionName.startsWith "printf" then false
      else if functionName.startsWith "_" then false
      else true

/-- `WriteModuleHeader` (lines 294-303): the functions whose signatures are
written into the header, in module order. -/
def WriteModuleHeader (functions : List LLVMFunctionDecl) :
    List LLVMFunctionDecl :=
  functions.filter ShouldWriteFunction

/-- The excluded name starts the claim lists. -/
def excludedStarts : List String :=
  ["_Node__", "llvm.", "clock_gettime", "cblas", "printf", "_"]

theorem shouldWriteFunction_iff (f : LLVMFunctionDecl) :
    ShouldWriteFunction f = true ↔
      ∃ s, f.name = some s ∧ ∀ p ∈ excludedStarts, s.startsWith p = false := by
  cases hname : f.name with
  | none => simp [ShouldWriteFunction, hname]
  | some s =>
      simp only [ShouldWriteFunction, hname, excludedStarts,
        List.forall_mem_cons, List.forall_mem_nil]
      split_ifs with h1 h2 h3 h4 h5 h6 <;> simp_all

/-- Claim C8: `WriteModuleHeader` emits a signature for exactly those
functions of the module that have a name not beginning with any of the
excluded starts `_Node__`, `llvm.`, `clock_gettime`, `cblas`, `printf`,
`_`; every function matching one of these internal naming conventions is
absent from the exported header surface. -/
theorem C8_header_exports_iff (functions : List LLVMFunctionDecl)
    (f : LLVMFunctionDecl) :
    f ∈ WriteModuleHeader functions ↔
      (f ∈ functions ∧
        ∃ s, f.name = some s ∧
          ∀ p ∈ excludedStarts, s.startsWith p = false) := by
  rw [WriteModuleHeader, List.mem_filter, shouldWriteFunction_iff]

/-! ## IR-only node methods throw NotImplemented
(BinaryConvolutionalLayerNode.cpp lines 333-337, 453-463, 515-519, 896-906) -/

/-- `BinaryReceptiveFieldMatrixNode::Compute` (lines 333-337):
`throw LogicException(notImplemented)`. -/
def BinaryReceptiveFieldMatrixNode.Compute
    (node : BinaryReceptiveFieldMatrixNode) :
    Except LogicExceptionErrors Unit :=
  Except.error LogicExceptionErrors.notImplemented

/-- `BinaryReceptiveFieldMatrixNode::WriteToArchive` (lines 453-457). -/
def BinaryReceptiveFieldMatrixNode.WriteToArchive
    (node : BinaryReceptiveFieldMatrixNode) :
    Except LogicExceptionErrors Unit :=
  Except.error LogicExceptionErrors.notImplemented

/-- `BinaryReceptiveFieldMatrixNode::ReadFromArchive` (lines 459-463). -/
def BinaryReceptiveFieldMatrixNode.ReadFromArchive
    (node : BinaryReceptiveFieldMatrixNode) :
    Except LogicExceptionErrors Unit :=
  Except.error LogicExceptionErrors.notImplemented

/-- `BinaryXnorNode::Compute` (lines 515-519). -/
def BinaryXnorNode.Compute (node : BinaryXnorNode) :
    Except LogicExceptionErrors Unit :=
  Except.error LogicExceptionErrors.notImplemented

/-- `BinaryXnorNode::WriteToArchive` (lines 896-900). -/
def BinaryXnorNode.WriteToArchive (node : BinaryXnorNode) :
    Except LogicExceptionErrors Unit :=
  Except.error LogicExceptionErrors.notImplemented

/-- `BinaryXnorNode::ReadFromArchive` (lines 902-906). -/
def BinaryXnorNode.ReadFromArchive (node : BinaryXnorNode) :
    Except LogicExceptionErrors Unit :=
  Except.error LogicExceptionErrors.notImplemented

/-- Claim C9: for every `BinaryReceptiveFieldMatrixNode` and `BinaryXnorNode`
(IR-only nodes), calling `Compute`, `WriteToArchive` or `ReadFromArchive`
always raises a `NotImplemented` error. -/
theorem C9_ir_only_notImplemented (bnode : BinaryReceptiveFieldMatrixNode)
    (xnode : BinaryXnorNode) :
    bnode.Compute = Except.error LogicExceptionErrors.notImplemented ∧
    bnode.WriteToArchive = Except.error LogicExceptionErrors.notImplemented ∧
    bnode.ReadFromArchive = Except.error LogicExceptionErrors.notImplemented ∧
    xnode.Compute = Except.error LogicExceptionErrors.notImplemented ∧
    xnode.WriteToArchive = Except.error LogicExceptionErrors.notImplemented ∧
    xnode.ReadFromArchive = Except.error LogicExceptionErrors.notImplemented :=
  ⟨rfl, rfl, rfl, rfl, rfl, rfl⟩

end ELL
